import Mathlib

/-! obc-peer: batching, message authentication, certificate pinning, state restoration

A shallow embedding of

* `consensus/simplebft/request.go` (request intake and batching of the primary),
* `consensus/simplebft/crypto.go` (signing and verification of envelopes),
* `consensus/simplebft/testsys_test.go` (the simulated host: timers and the event queue),
* `consensus-peer/connection/connection.go` (the pinning client handshake),
* `consensus/obcpbft/pbft-persist.go` (restoration of the persisted state),

followed by theorems about these definitions.
-/

namespace simplebft

/-! ## Data model -/

/-- A Go byte. -/
abbrev Byte := Fin 256

/-- A Go `[]byte`. -/
abbrev Bytes := List Byte

/-- The value of a Go `uint64` holding the natural number `n`. -/
def uint64 (n : Nat) : Nat := n % 18446744073709551616

/-- The value of a Go `int64` holding the integer `z`, in two's complement. -/
def int64 (z : Int) : Int :=
  (z + 9223372036854775808) % 18446744073709551616 - 9223372036854775808

/-- The conversion `time.Duration(n)` of a `uint64` value `n`: `time.Duration` is an `int64`
number of nanoseconds, so a value of `2^63` or more becomes negative. -/
def Duration (n : Nat) : Int := int64 (n : Int)

/-- The message `Request{Payload []byte}`. -/
structure Request where
  Payload : Bytes
deriving DecidableEq, Repr

/-- The replica configuration, with the fields the tests give it
(`Config{N, F, BatchDurationNsec, BatchSizeBytes, RequestTimeoutNsec}`).
Its declaration is not in the modelled files; the fields hold `uint64` values. -/
structure Config where
  N : Nat
  F : Nat
  BatchDurationNsec : Nat
  BatchSizeBytes : Nat
  RequestTimeoutNsec : Nat
deriving DecidableEq, Repr

/-- A `timerFunc`, the callback given to `Timer`. The modelled code registers
`s.batchReady` only; `other` stands for a callback of code outside the modelled files. -/
inductive timerFunc where
  | batchReady
  | other (name : String)
deriving DecidableEq, Repr

/-- The host's `testTimer{id, tf, cancelled}`. -/
structure testTimer where
  id : Nat
  tf : timerFunc
  cancelled : Bool
deriving DecidableEq, Repr

/-- The host's `testElem{at, ev}`, a queued event; `at` is a `time.Duration`. Only timer
events are modelled: `ev` is the address of a `testTimer`, that is its index in
`testSystem.timers`. -/
structure testElem where
  at_ : Int
  ev : Nat
deriving DecidableEq, Repr

/-- The host's `testSystem`: the simulated clock `now` (a `time.Duration`) and the event
`queue`. `timers` is the
heap of the `testTimer` objects allocated so far; a `Canceller` is an index into it. -/
structure testSystem where
  now : Int
  queue : List testElem
  timers : List testTimer
deriving DecidableEq, Repr

/-- The host's `testSystemAdapter`, the capability bundle of one replica. -/
structure testSystemAdapter where
  id : Nat
  sys : testSystem
deriving DecidableEq, Repr

/-- One recorded call `sendPreprepare(batch)`, with the slot `(view, seq)` it was made for. -/
structure PreprepareCall where
  view : Nat
  seq : Nat
  batch : List Request
deriving DecidableEq, Repr

/-- The replica state `SBFT`, restricted to the fields the modelled functions touch.
`batchTimer` is a `Canceller` (`none` for `nil`); `preprepares` is the log of the calls of
`sendPreprepare`, oldest first. -/
structure SBFT where
  sys : testSystemAdapter
  config : Config
  id : Nat
  view : Nat
  seq : Nat
  batch : List Request
  batchTimer : Option Nat
  preprepares : List PreprepareCall
deriving DecidableEq, Repr

/-! ## The simulated host (`testsys_test.go`) -/

/-- `testSystem.enqueue(d, ev)` with no `filterFn` installed (the filters of the tests
keep every timer event as it is): the event is queued for time `t.now + d`, an addition of
`time.Duration` values, that is of `int64`. -/
def testSystem.enqueue (t : testSystem) (d : Int) (ev : Nat) : testSystem :=
  { t with queue := t.queue ++ [{ at_ := int64 (t.now + d), ev := ev }] }

/-- `testSystemAdapter.Timer(d, tf)`: allocates `&testTimer{id: t.id, tf: tf}`, enqueues it
and returns it as the `Canceller`. -/
def testSystemAdapter.Timer (t : testSystemAdapter) (d : Int) (tf : timerFunc) :
    testSystemAdapter × Nat :=
  let tt := t.sys.timers.length
  let sys : testSystem :=
    { t.sys with timers := t.sys.timers ++ [{ id := t.id, tf := tf, cancelled := false }] }
  ({ t with sys := sys.enqueue d tt }, tt)

/-- `testTimer.Cancel()`. -/
def testTimer.Cancel (t : testTimer) : testTimer :=
  { t with cancelled := true }

/-- The heap after `Cancel()` on the timer at address `h`. -/
def cancelAt : List testTimer → Nat → List testTimer
  | [], _ => []
  | t :: ts, 0 => t.Cancel :: ts
  | t :: ts, h + 1 => t :: cancelAt ts h

/-- The adapter after `Cancel()` on the `Canceller` `h`. -/
def testSystemAdapter.Cancel (t : testSystemAdapter) (h : Nat) : testSystemAdapter :=
  { t with sys := { t.sys with timers := cancelAt t.sys.timers h } }

/-! ## Request intake and batching (`request.go`) -/

/-- Modelled from the spec: `isPrimary` is not in the modelled files. The spec says
"the primary of view v is `v mod N`". -/
def SBFT.isPrimary (s : SBFT) : Bool :=
  s.view % s.config.N == s.id

/-- Modelled from the spec: `sendPreprepare` is not in the modelled files. The spec says
"a Preprepare is constructed and broadcast for slot `(view, seq)`; `seq` increments". The call
is recorded with its slot and its batch, and `seq` is incremented. -/
def SBFT.sendPreprepare (s : SBFT) (batch : List Request) : SBFT :=
  { s with
    preprepares := s.preprepares ++ [{ view := s.view, seq := s.seq, batch := batch }]
    seq := s.seq + 1 }

/-- `SBFT.startBatchTimer`. -/
def SBFT.startBatchTimer (s : SBFT) : SBFT :=
  match s.batchTimer with
  | none =>
    let r := s.sys.Timer (Duration s.config.BatchDurationNsec) timerFunc.batchReady
    { s with sys := r.1, batchTimer := some r.2 }
  | some _ => s

/-- `SBFT.batchSize`: the `uint64` accumulation of `uint64(len(req.Payload))`. -/
def SBFT.batchSize (s : SBFT) : Nat :=
  s.batch.foldl (fun size req => uint64 (size + uint64 req.Payload.length)) (uint64 0)

/-- `SBFT.batchReady`. -/
def SBFT.batchReady (s : SBFT) : SBFT :=
  let s1 : SBFT :=
    match s.batchTimer with
    | some h => { s with sys := s.sys.Cancel h, batchTimer := none }
    | none => s
  let batch := s1.batch
  let s2 : SBFT := { s1 with batch := [] }
  s2.sendPreprepare batch

/-- `SBFT.handleRequest`. -/
def SBFT.handleRequest (s : SBFT) (req : Request) (_src : Nat) : SBFT :=
  if s.isPrimary then
    let s1 : SBFT := { s with batch := s.batch ++ [req] }
    if s1.batchSize ≥ s1.config.BatchSizeBytes then
      s1.batchReady
    else
      s1.startBatchTimer
  else
    s

/-! ## The event loop of the host -/

/-- `testTimer.Exec`: runs the callback unless the timer was cancelled. The result is
`none` for a callback that the modelled files do not define. -/
def testTimer.Exec (t : testTimer) (s : SBFT) : Option SBFT :=
  if !t.cancelled then
    match t.tf with
    | timerFunc.batchReady => some s.batchReady
    | timerFunc.other _ => none
  else
    some s

/-- One round of the loop of `testSystem.Run` on the queued event at position `i`: the event
is taken out of the queue, `now` becomes its time and it is executed. (`calendarQueue` is not
in the modelled files; the position stands for the order in which it pops.) -/
def SBFT.fire (s : SBFT) (i : Nat) : Option SBFT :=
  match s.sys.sys.queue[i]? with
  | none => none
  | some e =>
    match s.sys.sys.timers[e.ev]? with
    | none => none
    | some t =>
      let sys : testSystem := { s.sys.sys with queue := s.sys.sys.queue.eraseIdx i, now := e.at_ }
      t.Exec { s with sys := { s.sys with sys := sys } }

/-- The sum of the payload lengths of a list of requests. -/
def payloadSum (batch : List Request) : Nat :=
  (batch.map (fun req => req.Payload.length)).sum

/-- A replica as `New` leaves it on a fresh `testSystem`: nothing pending, no batch timer,
no event queued, no `sendPreprepare` made. -/
def SBFT.initial (s : SBFT) : Prop :=
  s.batch = [] ∧ s.batchTimer = none ∧ s.sys.sys.queue = [] ∧ s.preprepares = []

/-- One event at the replica: a request handled, or one queued timer event executed. -/
inductive Step : SBFT → SBFT → Prop where
  | request (s : SBFT) (req : Request) (src : Nat) : Step s (s.handleRequest req src)
  | timer (s s' : SBFT) (i : Nat) (h : s.fire i = some s') : Step s s'

/-- The states reachable from the initial state `s0`. -/
inductive Reachable (s0 : SBFT) : SBFT → Prop where
  | init : Reachable s0 s0
  | step (s s' : SBFT) (h : Reachable s0 s) (hs : Step s s') : Reachable s0 s'

/-- The requests of `reqs` handled one after the other, each with its sender. -/
def SBFT.handleRequests (s : SBFT) (reqs : List (Request × Nat)) : SBFT :=
  reqs.foldl (fun st r => st.handleRequest r.1 r.2) s

/-- The claim that a call taking `s` to `s'` started a request timer: the host's queue holds
an event for `now + RequestTimeoutNsec` that was not queued before the call. -/
def startsRequestTimer (s s' : SBFT) : Prop :=
  ∃ e ∈ s'.sys.sys.queue, e.at_ = int64 (s.sys.sys.now + Duration s.config.RequestTimeoutNsec)
    ∧ e ∉ s.sys.sys.queue

/-- The invariant of the batching code: every batch handed to `sendPreprepare` was non-empty,
every queued event points to an allocated timer, a queued timer that is not cancelled is
the batch timer of a replica whose pending batch is non-empty, and a batch timer is set only
while the pending batch is non-empty. -/
def SBFT.inv (s : SBFT) : Prop :=
  (∀ p ∈ s.preprepares, p.batch ≠ [])
    ∧ (∀ e ∈ s.sys.sys.queue, e.ev < s.sys.sys.timers.length)
    ∧ (∀ e ∈ s.sys.sys.queue, ∀ t, s.sys.sys.timers[e.ev]? = some t → t.cancelled = false →
        s.batchTimer = some e.ev ∧ s.batch ≠ [])
    ∧ (s.batchTimer ≠ none → s.batch ≠ [])

/-- The accumulation loop of `batchSize`, from an accumulator `acc`. -/
def sizeLoop (acc : Nat) (batch : List Request) : Nat :=
  batch.foldl (fun size req => uint64 (size + uint64 req.Payload.length)) acc

/-! ## Examples -/

/-- The configuration of `TestSBFT`. -/
def exConfig : Config :=
  { N := 4, F := 1, BatchDurationNsec := 2000000000, BatchSizeBytes := 10,
    RequestTimeoutNsec := 20000000000 }

/-- Replica 0 of `TestSBFT` (the primary of view 0) as `New` leaves it. -/
def exPrimary : SBFT :=
  { sys := { id := 0, sys := { now := 0, queue := [], timers := [] } }, config := exConfig,
    id := 0, view := 0, seq := 0, batch := [], batchTimer := none, preprepares := [] }

/-- Replica 1 of `TestSBFT` (a backup in view 0) as `New` leaves it. -/
def exBackup : SBFT :=
  { exPrimary with sys := { id := 1, sys := { now := 0, queue := [], timers := [] } }, id := 1 }

/-- The request `r1` of the tests. -/
def exR1 : Request := { Payload := [1, 2, 3] }

/-- The request `r2` of `TestSBFT`. -/
def exR2 : Request := { Payload := [3, 1, 2] }

/-- The request `r3` of `TestSBFT`. -/
def exR3 : Request := { Payload := [3, 5, 2] }

/-- The primary with `r2` pending and its batch timer running. -/
def exPending : SBFT := exPrimary.handleRequest exR2 1

/-! ## Signing and verification (`crypto.go`) -/

/-- A Go `error` value that is not `nil`. -/
abbrev Error := String

/-- The signing capabilities of the host, `s.sys.Sign` and `s.sys.CheckSig`. They are not
in the modelled files and are taken as they come; `CheckSig` returns `none` for a `nil`
error. -/
structure System where
  Sign : Bytes → Bytes
  CheckSig : Bytes → Nat → Bytes → Option Error

/-- The library functions `proto.Marshal` and `proto.Unmarshal` at a message type `M`.
`Unmarshal data msg` returns the error and the content of `msg` after the call. -/
structure Proto (M : Type) where
  Marshal : M → Except Error Bytes
  Unmarshal : Bytes → M → Option Error × M

/-- The envelope `Signed{Data, Signature}`. -/
structure Signed where
  Data : Bytes
  Signature : Bytes
deriving DecidableEq, Repr

/-- `SBFT.sign`; `none` stands for the `panic(err)` on a failed `proto.Marshal`. -/
def sign {M : Type} (sys : System) (pb : Proto M) (msg : M) : Option Signed :=
  match pb.Marshal msg with
  | Except.error _ => none
  | Except.ok bytes =>
    let sig := sys.Sign bytes
    some { Data := bytes, Signature := sig }

/-- `SBFT.checkBytesSig`. -/
def checkBytesSig (sys : System) (digest : Bytes) (signer : Nat) (sig : Bytes) : Option Error :=
  sys.CheckSig digest signer sig

/-- `SBFT.checkSig`: the returned error, and the content of `msg` after the call. -/
def checkSig {M : Type} (sys : System) (pb : Proto M) (sig : Signed) (signer : Nat) (msg : M) :
    Option Error × M :=
  match checkBytesSig sys sig.Data signer sig.Signature with
  | some err => (some err, msg)
  | none =>
    match pb.Unmarshal sig.Data msg with
    | (some err, msg') => (some err, msg')
    | (none, msg') => (none, msg')

/-- A host whose signature of `b` is `b` reversed, and which accepts exactly that from
signer 0. -/
def exSystem : System :=
  { Sign := fun b => b.reverse
    CheckSig := fun b signer sig =>
      if signer = 0 ∧ sig = b.reverse then none else some "bad signature" }

/-- A codec for messages that are byte strings: the encoding is the message behind the tag
byte 10, and decoding overwrites the target. -/
def exProto : Proto Bytes :=
  { Marshal := fun m => Except.ok (10 :: m)
    Unmarshal := fun b msg =>
      match b with
      | 10 :: m => (none, m)
      | _ => (some "bad tag", msg) }

end simplebft

namespace connection

/-- A Go `error` value that is not `nil`. -/
abbrev Error := String

/-- The dynamic type of a `net.Conn`: a `*tls.Conn`, of which the `PeerCertificates` of its
`ConnectionState()` are kept, or anything else. -/
inductive Conn (Cert : Type) where
  | tls (PeerCertificates : List Cert)
  | other (name : String)
deriving DecidableEq, Repr

/-- The value `credentials.TLSInfo{state}`, with the `PeerCertificates` of the state. -/
structure TLSInfo (Cert : Type) where
  State : List Cert
deriving DecidableEq, Repr

/-- The struct `patchedAuthenticator`. The embedded `TransportAuthenticator` is kept as its
`ClientHandshake(addr, rawConn, timeout)`, returning the connection and the error (the
`AuthInfo` it returns is dropped by the caller). -/
structure patchedAuthenticator (Cert : Type) where
  TransportAuthenticator : String → Nat → Nat → Option (Conn Cert) × Option Error
  pinnedCert : Cert
  tunneledError : Option Error

/-- The three results of `ClientHandshake`. -/
structure Handshake (Cert : Type) where
  conn : Option (Conn Cert)
  auth : Option (TLSInfo Cert)
  err : Option Error

/-- `patchedAuthenticator.ClientHandshake`: the three results and the authenticator after
the call. `Equal` is the library method `x509.Certificate.Equal`. -/
def patchedAuthenticator.ClientHandshake {Cert : Type} (Equal : Cert → Cert → Bool)
    (p : patchedAuthenticator Cert) (addr : String) (rawConn : Nat) (timeout : Nat) :
    Handshake Cert × patchedAuthenticator Cert :=
  match p.TransportAuthenticator addr rawConn timeout with
  | (_, some err) => ({ conn := none, auth := none, err := some err }, p)
  | (conn, none) =>
    match conn with
    | some (Conn.tls state) =>
      match state with
      | [] =>
        let p1 := { p with tunneledError := some "peer did not present certificate" }
        ({ conn := none, auth := none, err := p1.tunneledError }, p1)
      | cert :: _ =>
        if !Equal cert p.pinnedCert then
          let p1 := { p with tunneledError := some "peer certificate does not match" }
          ({ conn := none, auth := none, err := p1.tunneledError }, p1)
        else
          ({ conn := conn, auth := some { State := state }, err := none }, p)
    | _ =>
      let p1 := { p with tunneledError := some "connection is not using TLS" }
      ({ conn := none, auth := none, err := p1.tunneledError }, p1)

/-- An authenticator over certificates given by their DER bytes, pinned to `[1, 2]`, whose
inner handshake yields a TLS connection presenting the certificates `[1, 2]` and `[7]` at
the address "good", a TLS connection presenting `[9]` at "evil", and a plain connection
elsewhere. -/
def exAuth : patchedAuthenticator (List Nat) :=
  { TransportAuthenticator := fun addr _ _ =>
      if addr = "good" then (some (Conn.tls [[1, 2], [7]]), none)
      else if addr = "evil" then (some (Conn.tls [[9]]), none)
      else (some (Conn.other "tcp"), none)
    pinnedCert := [1, 2]
    tunneledError := none }

end connection

namespace obcpbft

/-- A Go `[]byte`. -/
abbrev Bytes := List (Fin 256)

/-- A Go `error` value that is not `nil`. -/
abbrev Error := String

/-- The message `ViewChange_PQ`, an entry of the P-set or of the Q-set, with the fields the
modelled code reads (all three are Go values compared for order or equality only). -/
structure ViewChange_PQ where
  SequenceNumber : Nat
  Digest : String
  View : Nat
deriving DecidableEq, Repr

/-- The key `qidx{d, n}` of the Q-set. -/
structure qidx where
  d : String
  n : Nat
deriving DecidableEq, Repr

/-- The persistence interface `instance.consumer`, read-only part: `ReadState(key)`,
`ReadStateSet(prefix)` (the map, in the order the `range` loop visits it) and
`getLastSeqNo()`. -/
structure Consumer where
  ReadState : String → Except Error Bytes
  ReadStateSet : String → Except Error (List (String × Bytes))
  getLastSeqNo : Nat × Bool

/-- The decoders used by the restoration, for a request type `Req`: `proto.Unmarshal` into a
`PQset` (followed by `GetSet()`) and into a `Request`, and `hashReq`. None of them is in the
modelled files. -/
structure Codec (Req : Type) where
  UnmarshalPQset : Bytes → Except Error (List ViewChange_PQ)
  UnmarshalRequest : Bytes → Except Error Req
  hashReq : Req → String

/-- The assignment `m[k] = v` on a Go map kept as an association list. -/
def mapStore {K V : Type} [DecidableEq K] (m : List (K × V)) (k : K) (v : V) : List (K × V) :=
  m.filter (fun kv => kv.1 ≠ k) ++ [(k, v)]

/-- The struct `pbftCore`, restricted to the fields the restoration touches. -/
structure pbftCore (Req : Type) where
  consumer : Consumer
  view : Nat
  seqNo : Nat
  lastExec : Nat
  pset : List (Nat × ViewChange_PQ)
  qset : List (qidx × ViewChange_PQ)
  reqStore : List (String × Req)

/-- `pbftCore.restorePQSet`: `nil` when the key cannot be read or does not decode. -/
def pbftCore.restorePQSet {Req : Type} (inst : pbftCore Req) (pb : Codec Req) (key : String) :
    List ViewChange_PQ :=
  match inst.consumer.ReadState key with
  | Except.error _ => []
  | Except.ok raw =>
    match pb.UnmarshalPQset raw with
    | Except.error _ => []
    | Except.ok val => val

/-- The closure `updateSeqView` of `restoreState`. -/
def pbftCore.updateSeqView {Req : Type} (inst : pbftCore Req) (set : List ViewChange_PQ) :
    pbftCore Req :=
  set.foldl
    (fun i e =>
      let i1 := if i.view < e.View then { i with view := e.View } else i
      if i1.seqNo < e.SequenceNumber then { i1 with seqNo := e.SequenceNumber } else i1)
    inst

/-- `pbftCore.restoreState`. -/
def pbftCore.restoreState {Req : Type} (inst : pbftCore Req) (pb : Codec Req) : pbftCore Req :=
  let set := inst.restorePQSet pb "pset"
  let i1 := set.foldl (fun i e => { i with pset := mapStore i.pset e.SequenceNumber e }) inst
  let i2 := i1.updateSeqView set
  let set2 := i2.restorePQSet pb "qset"
  let i3 := set2.foldl
    (fun i e => { i with qset := mapStore i.qset { d := e.Digest, n := e.SequenceNumber } e }) i2
  let i4 := i3.updateSeqView set2
  let i5 :=
    match i4.consumer.ReadStateSet "req." with
    | Except.ok reqs =>
      reqs.foldl
        (fun (i : pbftCore Req) (kv : String × Bytes) =>
          match pb.UnmarshalRequest kv.2 with
          | Except.error _ => i
          | Except.ok req => { i with reqStore := mapStore i.reqStore (pb.hashReq req) req })
        i4
    | Except.error _ => i4
  let r := i5.consumer.getLastSeqNo
  let i6 := { i5 with lastExec := r.1 }
  if !r.2 then { i6 with lastExec := 0 } else i6

/-- The maximum of a list of numbers, `0` for the empty list. -/
def maxOf (l : List Nat) : Nat := l.foldr max 0

/-- A codec whose byte strings hold one P/Q entry per byte `b`, with sequence number `b` and
view `b / 16`; requests are not decoded. -/
def exCodec : Codec Unit :=
  { UnmarshalPQset := fun raw =>
      Except.ok (raw.map (fun b => { SequenceNumber := b.val, Digest := "", View := b.val / 16 }))
    UnmarshalRequest := fun _ => Except.error "no request"
    hashReq := fun _ => "" }

/-- A store holding a P-set with the entries 33 and 18, no readable Q-set, no request, and
the last executed sequence number 30. -/
def exConsumer : Consumer :=
  { ReadState := fun key => if key = "pset" then Except.ok [33, 18] else Except.error "absent"
    ReadStateSet := fun _ => Except.ok []
    getLastSeqNo := (30, true) }

/-- A freshly booted instance on `exConsumer`. -/
def exCore : pbftCore Unit :=
  { consumer := exConsumer, view := 0, seqNo := 0, lastExec := 0, pset := [], qset := [],
    reqStore := [] }

/-! ## Persisted requests (`pbft-persist.go`) -/

/-- Modelled from the spec: the backend behind `instance.consumer` is not in the modelled
files. The spec says "a key-value store with operations `StoreState(key, bytes)`,
`ReadState(key) -> bytes`, `ReadStateSet(prefix) -> map`, `DelState(key)`". The store is kept
as the list of its entries. -/
structure Store where
  entries : List (String × Bytes)
deriving DecidableEq, Repr

/-- Modelled from the spec: `StoreState(key, bytes)` of the missing backend; the entry of
`key` becomes `raw`. -/
def Store.StoreState (st : Store) (key : String) (raw : Bytes) : Store :=
  { entries := mapStore st.entries key raw }

/-- Modelled from the spec: `DelState(key)` of the missing backend; the entry of `key`, if
there is one, is removed and no other entry changes. -/
def Store.DelState (st : Store) (key : String) : Store :=
  { entries := st.entries.filter (fun kv => kv.1 ≠ key) }

/-- Modelled from the spec: `ReadState(key)` of the missing backend; the bytes stored under
`key`, or an error when there are none. -/
def Store.ReadState (st : Store) (key : String) : Except Error Bytes :=
  match st.entries.find? (fun kv => kv.1 = key) with
  | some kv => Except.ok kv.2
  | none => Except.error "key not found"

/-- Modelled from the spec: `ReadStateSet(prefix)` of the missing backend; the entries whose
key starts with `pre`, under their full keys. -/
def Store.ReadStateSet (st : Store) (pre : String) : Except Error (List (String × Bytes)) :=
  Except.ok (st.entries.filter (fun kv => pre.data.isPrefixOf kv.1.data))

/-- The Go map read `instance.reqStore[digest]`: `none` is the `nil` of an absent digest. -/
def pbftCore.reqStoreGet {Req : Type} (inst : pbftCore Req) (digest : String) : Option Req :=
  (inst.reqStore.find? (fun kv => kv.1 = digest)).map Prod.snd

/-- `pbftCore.persistRequest`: the store behind `instance.consumer` after the call.
`Marshal` is the library function `proto.Marshal` on a `*Request`. -/
def pbftCore.persistRequest {Req : Type} (inst : pbftCore Req)
    (Marshal : Option Req → Except Error Bytes) (st : Store) (digest : String) : Store :=
  let req := inst.reqStoreGet digest
  match Marshal req with
  | Except.error _ => st
  | Except.ok raw => st.StoreState ("req." ++ digest) raw

/-- `pbftCore.persistDelRequest`: the store behind `instance.consumer` after the call. -/
def pbftCore.persistDelRequest (st : Store) (digest : String) : Store :=
  st.DelState digest

/-- `pbftCore.persistDelAllRequests`: the store behind `instance.consumer` after the
call. -/
def pbftCore.persistDelAllRequests (st : Store) : Store :=
  match st.ReadStateSet "req." with
  | Except.ok reqs => reqs.foldl (fun s kv => s.DelState kv.1) st
  | Except.error _ => st

/-- An encoder of requests that are byte strings: the request itself, and an error for
`nil`. -/
def exMarshal : Option Bytes → Except Error Bytes
  | some req => Except.ok req
  | none => Except.error "nil request"

/-- An instance whose request store holds the request `[7]` under the digest "ab". -/
def exCoreReq : pbftCore Bytes :=
  { consumer := exConsumer, view := 0, seqNo := 0, lastExec := 0, pset := [], qset := [],
    reqStore := [("ab", [7])] }

/-- A store holding the P-set only. -/
def exStore : Store := { entries := [("pset", [33, 18])] }

end obcpbft

namespace simplebft

/-! ## Lemmas on `batchSize` -/

theorem uint64_le (n : Nat) : uint64 n ≤ n := Nat.mod_le _ _

theorem uint64_of_lt {n : Nat} (h : n < 18446744073709551616) : uint64 n = n :=
  Nat.mod_eq_of_lt h

theorem sizeLoop_le (batch : List Request) (acc : Nat) :
    sizeLoop acc batch ≤ acc + payloadSum batch := by
  induction batch generalizing acc with
  | nil => simp [sizeLoop, payloadSum]
  | cons r rs ih =>
    have h1 := ih (uint64 (acc + uint64 r.Payload.length))
    have h2 := uint64_le (acc + uint64 r.Payload.length)
    have h3 := uint64_le r.Payload.length
    simp only [sizeLoop, List.foldl_cons, payloadSum, List.map_cons, List.sum_cons] at h1 ⊢
    omega

theorem sizeLoop_eq (batch : List Request) (acc : Nat)
    (h : acc + payloadSum batch < 18446744073709551616) :
    sizeLoop acc batch = acc + payloadSum batch := by
  induction batch generalizing acc with
  | nil => simp [sizeLoop, payloadSum]
  | cons r rs ih =>
    simp only [payloadSum, List.map_cons, List.sum_cons] at h
    have e1 : uint64 r.Payload.length = r.Payload.length := uint64_of_lt (by omega)
    have e2 : uint64 (acc + r.Payload.length) = acc + r.Payload.length := uint64_of_lt (by omega)
    have h1 := ih (acc + r.Payload.length) (by simp only [payloadSum]; omega)
    simp only [sizeLoop, List.foldl_cons, payloadSum, List.map_cons, List.sum_cons, e1, e2]
      at h1 ⊢
    omega

theorem batchSize_eq_sizeLoop (s : SBFT) : s.batchSize = sizeLoop 0 s.batch := rfl

theorem batchSize_le (s : SBFT) : s.batchSize ≤ payloadSum s.batch := by
  have h := sizeLoop_le s.batch 0
  rw [batchSize_eq_sizeLoop]; omega

theorem batchSize_eq (s : SBFT) (h : payloadSum s.batch < 18446744073709551616) :
    s.batchSize = payloadSum s.batch := by
  have h1 := sizeLoop_eq s.batch 0 (by omega)
  rw [batchSize_eq_sizeLoop]; omega

theorem payloadSum_append (a b : List Request) :
    payloadSum (a ++ b) = payloadSum a + payloadSum b := by
  simp [payloadSum]

/-! ## Lemmas on the branches of `handleRequest` -/

theorem handleRequest_of_ge (s : SBFT) (req : Request) (src : Nat) (hp : s.isPrimary = true)
    (h : s.config.BatchSizeBytes ≤ SBFT.batchSize { s with batch := s.batch ++ [req] }) :
    s.handleRequest req src = SBFT.batchReady { s with batch := s.batch ++ [req] } := by
  simp only [SBFT.handleRequest, hp, if_true]
  rw [if_pos (show SBFT.batchSize { s with batch := s.batch ++ [req] } ≥ s.config.BatchSizeBytes
    from h)]

theorem handleRequest_of_lt (s : SBFT) (req : Request) (src : Nat) (hp : s.isPrimary = true)
    (h : SBFT.batchSize { s with batch := s.batch ++ [req] } < s.config.BatchSizeBytes) :
    s.handleRequest req src = SBFT.startBatchTimer { s with batch := s.batch ++ [req] } := by
  simp only [SBFT.handleRequest, hp, if_true]
  rw [if_neg (show ¬ SBFT.batchSize { s with batch := s.batch ++ [req] } ≥ s.config.BatchSizeBytes
    from by omega)]

theorem handleRequest_of_backup (s : SBFT) (req : Request) (src : Nat)
    (hp : s.isPrimary = false) : s.handleRequest req src = s := by
  simp [SBFT.handleRequest, hp]

/-! ## Lemmas on `Cancel` -/

theorem cancelAt_length (l : List testTimer) (h : Nat) : (cancelAt l h).length = l.length := by
  induction l generalizing h with
  | nil => rfl
  | cons t ts ih => cases h <;> simp [cancelAt, ih]

theorem cancelAt_getElem?_self (l : List testTimer) (h : Nat) :
    (cancelAt l h)[h]? = (l[h]?).map testTimer.Cancel := by
  induction l generalizing h with
  | nil => simp [cancelAt]
  | cons t ts ih =>
    cases h with
    | zero => simp [cancelAt]
    | succ h => simpa [cancelAt] using ih h

theorem cancelAt_getElem?_ne (l : List testTimer) (h i : Nat) (hne : i ≠ h) :
    (cancelAt l h)[i]? = l[i]? := by
  induction l generalizing h i with
  | nil => simp [cancelAt]
  | cons t ts ih =>
    cases h with
    | zero =>
      cases i with
      | zero => exact absurd rfl hne
      | succ i => simp [cancelAt]
    | succ h =>
      cases i with
      | zero => simp [cancelAt]
      | succ i => simpa [cancelAt] using ih h i (by omega)

/-! ## Batch formation -/

/-- C1. At a primary, when the payload lengths of the pending requests together with `req`
add up to at least `BatchSizeBytes` (a sum of lengths of byte strings held in memory, hence
below `2^64`), `handleRequest` forms a batch at once: the log of `sendPreprepare` grows by
exactly one call, made with the old pending batch followed by `req`, and afterwards the
pending batch is empty and no batch timer is set. -/
theorem handleRequest_full_batch (s : SBFT) (req : Request) (src : Nat)
    (hp : s.isPrimary = true)
    (hfit : payloadSum (s.batch ++ [req]) < 18446744073709551616)
    (hsz : s.config.BatchSizeBytes ≤ payloadSum (s.batch ++ [req])) :
    (s.handleRequest req src).preprepares
        = s.preprepares ++ [{ view := s.view, seq := s.seq, batch := s.batch ++ [req] }]
      ∧ (s.handleRequest req src).batch = []
      ∧ (s.handleRequest req src).batchTimer = none := by
  have hb : SBFT.batchSize { s with batch := s.batch ++ [req] } = payloadSum (s.batch ++ [req]) :=
    batchSize_eq _ hfit
  rw [handleRequest_of_ge s req src hp (by rw [hb]; exact hsz)]
  cases ht : s.batchTimer <;> simp [SBFT.batchReady, SBFT.sendPreprepare, ht]

theorem int64_of_range (z : Int) (h1 : -9223372036854775808 ≤ z)
    (h2 : z < 9223372036854775808) : int64 z = z := by
  unfold int64
  omega

theorem Duration_of_lt (n : Nat) (h : n < 9223372036854775808) : Duration n = (n : Int) := by
  unfold Duration
  exact int64_of_range _ (by omega) (by omega)

theorem Duration_wraps : Duration 9223372036854775808 = -9223372036854775808 := by
  decide

theorem int64_add_wraps :
    int64 (4611686018427387904 + Duration 4611686018427387904) = -9223372036854775808 := by
  decide

theorem startBatchTimer_wraps :
    (SBFT.startBatchTimer
        { exPrimary with
          config := { exConfig with BatchDurationNsec := 9223372036854775808 } }).sys.sys.queue
      = [{ at_ := -9223372036854775808, ev := 0 }] := by
  decide

/-- C2. At a primary, when the payload lengths of the pending requests together with `req`
stay strictly below `BatchSizeBytes`, `handleRequest` appends `req` to the pending batch and
makes no call of `sendPreprepare`. The host is asked for a timer exactly when no batch timer
was set: the call is `Timer(time.Duration(BatchDurationNsec), batchReady)`, which allocates
one new `testTimer` with callback `batchReady`, queues it for the `int64` sum of `now` and
that duration, and its handle is kept as the batch timer. For `BatchDurationNsec` below
`2^63` the duration asked for is exactly `BatchDurationNsec` nanoseconds, and when the clock
and `now + BatchDurationNsec` are in the `int64` range the timer is queued for exactly
`now + BatchDurationNsec`. When a batch timer was set, the handle and the host are left as
they were. -/
theorem handleRequest_small_batch (s : SBFT) (req : Request) (src : Nat)
    (hp : s.isPrimary = true)
    (hlt : payloadSum (s.batch ++ [req]) < s.config.BatchSizeBytes) :
    (s.handleRequest req src).batch = s.batch ++ [req]
      ∧ (s.handleRequest req src).preprepares = s.preprepares
      ∧ ((s.handleRequest req src).sys
            = (s.sys.Timer (Duration s.config.BatchDurationNsec) timerFunc.batchReady).1
          ↔ s.batchTimer = none)
      ∧ (s.batchTimer = none →
          (s.handleRequest req src).batchTimer = some s.sys.sys.timers.length
          ∧ (s.handleRequest req src).sys.sys.timers
              = s.sys.sys.timers
                ++ [{ id := s.sys.id, tf := timerFunc.batchReady, cancelled := false }]
          ∧ (s.handleRequest req src).sys.sys.queue
              = s.sys.sys.queue
                ++ [{ at_ := int64 (s.sys.sys.now + Duration s.config.BatchDurationNsec),
                      ev := s.sys.sys.timers.length }])
      ∧ (s.batchTimer = none → s.config.BatchDurationNsec < 9223372036854775808 →
          (s.handleRequest req src).sys
              = (s.sys.Timer (s.config.BatchDurationNsec : Int) timerFunc.batchReady).1
          ∧ (-9223372036854775808 ≤ s.sys.sys.now →
              s.sys.sys.now + (s.config.BatchDurationNsec : Int) < 9223372036854775808 →
              (s.handleRequest req src).sys.sys.queue
                = s.sys.sys.queue
                  ++ [{ at_ := s.sys.sys.now + (s.config.BatchDurationNsec : Int),
                        ev := s.sys.sys.timers.length }]))
      ∧ (∀ h, s.batchTimer = some h →
          (s.handleRequest req src).batchTimer = some h
          ∧ (s.handleRequest req src).sys = s.sys) := by
  have hb := batchSize_le { s with batch := s.batch ++ [req] }
  rw [handleRequest_of_lt s req src hp (lt_of_le_of_lt hb hlt)]
  cases ht : s.batchTimer with
  | none =>
    refine ⟨by simp [SBFT.startBatchTimer, ht], by simp [SBFT.startBatchTimer, ht],
      by simp [SBFT.startBatchTimer, ht],
      fun _ => by simp [SBFT.startBatchTimer, ht, testSystemAdapter.Timer, testSystem.enqueue],
      ?_, by simp⟩
    intro _ hd
    have hdur := Duration_of_lt _ hd
    refine ⟨by simp [SBFT.startBatchTimer, ht, hdur], ?_⟩
    intro h1 h2
    have hsum := int64_of_range (s.sys.sys.now + (s.config.BatchDurationNsec : Int))
      (by omega) h2
    simp [SBFT.startBatchTimer, ht, testSystemAdapter.Timer, testSystem.enqueue, hdur, hsum]
  | some h =>
    simp only [SBFT.startBatchTimer, ht, true_and, reduceCtorEq, false_imp_iff, iff_false,
      Option.some.injEq, forall_eq', and_true, and_self]
    intro hc
    have := congrArg (fun a => a.sys.queue.length) hc
    simp [testSystemAdapter.Timer, testSystem.enqueue] at this

/-- C3. For every replica state, `batchReady` takes the pending batch in one step: a batch
timer that is set is cancelled (its `testTimer` gets `cancelled = true`, nothing else in the
host changes), the state is left with an empty pending batch and no batch timer, and the log
of `sendPreprepare` grows by exactly one call, made with the list that was pending. -/
theorem batchReady_takes_batch (s : SBFT) :
    s.batchReady.batch = []
      ∧ s.batchReady.batchTimer = none
      ∧ s.batchReady.preprepares
          = s.preprepares ++ [{ view := s.view, seq := s.seq, batch := s.batch }]
      ∧ (∀ h, s.batchTimer = some h →
          s.batchReady.sys = s.sys.Cancel h
          ∧ s.batchReady.sys.sys.queue = s.sys.sys.queue
          ∧ s.batchReady.sys.sys.timers.length = s.sys.sys.timers.length
          ∧ (∀ t, s.sys.sys.timers[h]? = some t →
              s.batchReady.sys.sys.timers[h]? = some { t with cancelled := true })
          ∧ (∀ i, i ≠ h → s.batchReady.sys.sys.timers[i]? = s.sys.sys.timers[i]?))
      ∧ (s.batchTimer = none → s.batchReady.sys = s.sys) := by
  cases ht : s.batchTimer with
  | none => simp [SBFT.batchReady, SBFT.sendPreprepare, ht]
  | some h =>
    simp only [SBFT.batchReady, SBFT.sendPreprepare, ht, true_and, reduceCtorEq, false_imp_iff,
      Option.some.injEq, forall_eq', and_true, testSystemAdapter.Cancel]
    refine ⟨cancelAt_length _ _, ?_, ?_⟩
    · intro t hget
      rw [cancelAt_getElem?_self, hget]; rfl
    · intro i hi
      exact cancelAt_getElem?_ne _ _ _ hi

/-- Instance of C1 from `TestByzPrimary`, where `BatchSizeBytes = 1`: the request `r1` is
cut into a batch of its own as soon as it arrives. -/
theorem handleRequest_full_batch_witness :
    ({ exPrimary with config := { exConfig with BatchSizeBytes := 1 } } : SBFT).isPrimary = true
      ∧ (SBFT.handleRequest { exPrimary with config := { exConfig with BatchSizeBytes := 1 } }
          exR1 0).preprepares = [{ view := 0, seq := 0, batch := [exR1] }] :=
  ⟨by decide,
   (handleRequest_full_batch { exPrimary with config := { exConfig with BatchSizeBytes := 1 } }
      exR1 0 (by decide) (by decide) (by decide)).1⟩

/-- Instance of C2 from `TestSBFT`: `r2` alone stays below `BatchSizeBytes = 10`, is kept
pending, and the batch timer is started and queued for `0 + 2000000000`. -/
theorem handleRequest_small_batch_witness :
    exPrimary.isPrimary = true
      ∧ (exPrimary.handleRequest exR2 1).batch = [exR2]
      ∧ (exPrimary.handleRequest exR2 1).preprepares = []
      ∧ (exPrimary.handleRequest exR2 1).sys.sys.queue = [{ at_ := 2000000000, ev := 0 }] :=
  ⟨by decide, (handleRequest_small_batch exPrimary exR2 1 (by decide) (by decide)).1,
   (handleRequest_small_batch exPrimary exR2 1 (by decide) (by decide)).2.1,
   ((handleRequest_small_batch exPrimary exR2 1 (by decide) (by decide)).2.2.2.2.1 rfl
      (by decide)).2 (by decide) (by decide)⟩

/-- Instance of C3: with `r2` pending and the batch timer running, `batchReady` cancels the
timer and hands `[r2]` to `sendPreprepare`. -/
theorem batchReady_takes_batch_witness :
    exPending.batchTimer = some 0
      ∧ exPending.batchReady.sys = exPending.sys.Cancel 0
      ∧ exPending.batchReady.preprepares = [{ view := 0, seq := 0, batch := [exR2] }] :=
  ⟨by decide, ((batchReady_takes_batch exPending).2.2.2.1 0 (by decide)).1,
   (batchReady_takes_batch exPending).2.2.1⟩

/-! ## A batch cut by the timer -/

theorem isPrimary_congr (s s' : SBFT) (hv : s'.view = s.view) (hc : s'.config = s.config)
    (hi : s'.id = s.id) : s'.isPrimary = s.isPrimary := by
  simp [SBFT.isPrimary, hv, hc, hi]

theorem handleRequests_pending (reqs : List (Request × Nat)) (s : SBFT) (h : Nat)
    (hp : s.isPrimary = true) (ht : s.batchTimer = some h)
    (hlt : payloadSum (s.batch ++ reqs.map Prod.fst) < s.config.BatchSizeBytes) :
    s.handleRequests reqs = { s with batch := s.batch ++ reqs.map Prod.fst } := by
  induction reqs generalizing s with
  | nil => simp [SBFT.handleRequests]
  | cons r rs ih =>
    have hsum : payloadSum (s.batch ++ [r.1]) < s.config.BatchSizeBytes := by
      simp only [List.map_cons, payloadSum_append] at hlt ⊢
      simp only [payloadSum, List.map_cons, List.sum_cons, List.map_nil, List.sum_nil] at hlt ⊢
      omega
    have hb := batchSize_le { s with batch := s.batch ++ [r.1] }
    have h1 : s.handleRequest r.1 r.2 = { s with batch := s.batch ++ [r.1] } := by
      rw [handleRequest_of_lt s r.1 r.2 hp (lt_of_le_of_lt hb hsum)]
      simp [SBFT.startBatchTimer, ht]
    have h2 := ih { s with batch := s.batch ++ [r.1] }
      ((isPrimary_congr s _ rfl rfl rfl).trans hp) ht
      (by simpa [List.append_assoc] using hlt)
    simp only [SBFT.handleRequests, List.foldl_cons] at h2 ⊢
    rw [h1, h2]
    simp [List.append_assoc]

/-- C4. A non-empty sequence of requests handled in order by a primary whose pending batch
is empty (such a replica has no batch timer set, see `SBFT.inv`), with payload lengths adding
up to less than `BatchSizeBytes`: while they are handled no batch is formed and the batch
timer started by the first request stays the one set, its event queued for the `int64` sum
of `now` and `time.Duration(BatchDurationNsec)`; when the host then executes that queued
event, whatever its time, exactly one call of `sendPreprepare` is made, with the requests in
arrival order, and the replica is left with an empty pending batch and no batch timer. -/
theorem batch_cut_by_timer (s : SBFT) (reqs : List (Request × Nat))
    (hp : s.isPrimary = true) (hb : s.batch = []) (ht : s.batchTimer = none)
    (hne : reqs ≠ [])
    (hlt : payloadSum (reqs.map Prod.fst) < s.config.BatchSizeBytes) :
    (s.handleRequests reqs).preprepares = s.preprepares
      ∧ (s.handleRequests reqs).batchTimer = some s.sys.sys.timers.length
      ∧ (s.handleRequests reqs).sys.sys.queue[s.sys.sys.queue.length]?
          = some { at_ := int64 (s.sys.sys.now + Duration s.config.BatchDurationNsec),
                   ev := s.sys.sys.timers.length }
      ∧ ∃ s', (s.handleRequests reqs).fire s.sys.sys.queue.length = some s'
          ∧ s'.preprepares
              = s.preprepares
                ++ [{ view := s.view, seq := s.seq, batch := reqs.map Prod.fst }]
          ∧ s'.batch = [] ∧ s'.batchTimer = none := by
  cases reqs with
  | nil => exact absurd rfl hne
  | cons r rs =>
    have hsum : payloadSum (s.batch ++ [r.1]) < s.config.BatchSizeBytes := by
      rw [hb]
      simp only [payloadSum, List.map_cons, List.sum_cons, List.nil_append, List.map_nil,
        List.sum_nil] at hlt ⊢
      omega
    have hle := batchSize_le { s with batch := s.batch ++ [r.1] }
    have h1 : s.handleRequest r.1 r.2
        = { s with batch := [r.1],
                   sys := (s.sys.Timer (Duration s.config.BatchDurationNsec)
                     timerFunc.batchReady).1,
                   batchTimer := some s.sys.sys.timers.length } := by
      rw [handleRequest_of_lt s r.1 r.2 hp (lt_of_le_of_lt hle hsum)]
      simp [SBFT.startBatchTimer, ht, hb, testSystemAdapter.Timer]
    have h2 := handleRequests_pending rs (s.handleRequest r.1 r.2) s.sys.sys.timers.length
      ((isPrimary_congr s (s.handleRequest r.1 r.2) (by rw [h1]) (by rw [h1]) (by rw [h1])).trans hp)
      (by rw [h1])
      (by rw [h1]; simpa using hlt)
    have h3 : s.handleRequests (r :: rs) = (s.handleRequest r.1 r.2).handleRequests rs := by
      simp [SBFT.handleRequests]
    rw [h3, h2, h1]
    refine ⟨rfl, rfl, ?_, ?_⟩
    · simp [testSystemAdapter.Timer, testSystem.enqueue]
    · simp [SBFT.fire, testSystemAdapter.Timer, testSystem.enqueue, testTimer.Exec,
        SBFT.batchReady, SBFT.sendPreprepare]

/-- Instance of C4 from `TestSBFT`: `r2 = [3,1,2]` then `r3 = [3,5,2]` with
`BatchSizeBytes = 10` give the single batch `[[3,1,2],[3,5,2]]` when the timer fires. -/
theorem batch_cut_by_timer_witness :
    payloadSum [exR2, exR3] < exPrimary.config.BatchSizeBytes
      ∧ ∃ s', (exPrimary.handleRequests [(exR2, 1), (exR3, 1)]).fire 0 = some s'
          ∧ s'.preprepares
              = [{ view := 0, seq := 0,
                   batch := [{ Payload := [3, 1, 2] }, { Payload := [3, 5, 2] }] }]
          ∧ s'.batch = [] ∧ s'.batchTimer = none :=
  ⟨by decide,
   (batch_cut_by_timer exPrimary [(exR2, 1), (exR3, 1)] (by decide) (by decide) (by decide)
      (by decide) (by decide)).2.2.2⟩

/-! ## Requests at a backup -/

/-- C5 as the code has it. At a replica that is not the primary of its view, `handleRequest`
leaves the whole replica state and the host as they are: nothing is stored, no timer is
started and no call of `sendPreprepare` is made. -/
theorem handleRequest_backup_noop (s : SBFT) (req : Request) (src : Nat)
    (hp : s.isPrimary = false) : s.handleRequest req src = s :=
  handleRequest_of_backup s req src hp

/-- Instance of C5 as the code has it, at replica 1 of `TestSBFT`. -/
theorem handleRequest_backup_noop_witness :
    exBackup.isPrimary = false ∧ exBackup.handleRequest exR2 1 = exBackup :=
  ⟨by decide, handleRequest_backup_noop exBackup exR2 1 (by decide)⟩

/-- C5 as stated fails. Replica 1 of `TestSBFT` is a backup in view 0 and has no timer of any
kind running; after `handleRequest(r2, 1)` the host still has no timer queued, so no request
timer of `RequestTimeoutNsec` was started, and the replica state is what it was. -/
theorem handleRequest_backup_counterexample :
    exBackup.isPrimary = false
      ∧ exBackup.sys.sys.queue = []
      ∧ ¬ startsRequestTimer exBackup (exBackup.handleRequest exR2 1)
      ∧ (exBackup.handleRequest exR2 1).sys.sys.queue = []
      ∧ exBackup.handleRequest exR2 1 = exBackup := by
  refine ⟨by decide, by decide, ?_, by decide, by decide⟩
  rintro ⟨e, he, -⟩
  have hq : (exBackup.handleRequest exR2 1).sys.sys.queue = [] := by decide
  rw [hq] at he
  cases he

/-! ## Batches are never empty -/

theorem cancelAt_live (l : List testTimer) (h i : Nat) (t : testTimer)
    (hg : (cancelAt l h)[i]? = some t) (hc : t.cancelled = false) :
    i ≠ h ∧ l[i]? = some t := by
  by_cases hi : i = h
  · subst hi
    rw [cancelAt_getElem?_self] at hg
    cases hl : l[i]? with
    | none => rw [hl] at hg; cases hg
    | some t0 =>
      rw [hl] at hg
      simp only [Option.map_some', Option.some.injEq] at hg
      rw [← hg] at hc
      simp [testTimer.Cancel] at hc
  · exact ⟨hi, by rw [← cancelAt_getElem?_ne l h i hi]; exact hg⟩

theorem inv_batchReady (s : SBFT)
    (h1 : ∀ p ∈ s.preprepares, p.batch ≠ [])
    (h2 : ∀ e ∈ s.sys.sys.queue, e.ev < s.sys.sys.timers.length)
    (h3 : ∀ e ∈ s.sys.sys.queue, ∀ t, s.sys.sys.timers[e.ev]? = some t → t.cancelled = false →
      s.batchTimer = some e.ev)
    (hb : s.batch ≠ []) : s.batchReady.inv := by
  cases ht : s.batchTimer with
  | none =>
    refine ⟨?_, ?_, ?_, by simp [SBFT.batchReady, SBFT.sendPreprepare, ht]⟩
    · intro p hpm
      simp only [SBFT.batchReady, SBFT.sendPreprepare, ht, List.mem_append,
        List.mem_singleton] at hpm
      rcases hpm with hpm | hpm
      · exact h1 p hpm
      · rw [hpm]; exact hb
    · intro e he
      simp only [SBFT.batchReady, SBFT.sendPreprepare, ht] at he ⊢
      exact h2 e he
    · intro e he t hg hc
      simp only [SBFT.batchReady, SBFT.sendPreprepare, ht] at he hg
      have := h3 e he t hg hc
      rw [ht] at this
      cases this
  | some h =>
    refine ⟨?_, ?_, ?_, by simp [SBFT.batchReady, SBFT.sendPreprepare, ht]⟩
    · intro p hpm
      simp only [SBFT.batchReady, SBFT.sendPreprepare, ht, List.mem_append,
        List.mem_singleton] at hpm
      rcases hpm with hpm | hpm
      · exact h1 p hpm
      · rw [hpm]; exact hb
    · intro e he
      simp only [SBFT.batchReady, SBFT.sendPreprepare, ht, testSystemAdapter.Cancel,
        cancelAt_length] at he ⊢
      exact h2 e he
    · intro e he t hg hc
      simp only [SBFT.batchReady, SBFT.sendPreprepare, ht, testSystemAdapter.Cancel] at he hg
      obtain ⟨hne, hold⟩ := cancelAt_live _ _ _ _ hg hc
      have := h3 e he t hold hc
      rw [ht] at this
      exact absurd (Option.some.inj this).symm hne

theorem inv_startBatchTimer (s : SBFT)
    (h1 : ∀ p ∈ s.preprepares, p.batch ≠ [])
    (h2 : ∀ e ∈ s.sys.sys.queue, e.ev < s.sys.sys.timers.length)
    (h3 : ∀ e ∈ s.sys.sys.queue, ∀ t, s.sys.sys.timers[e.ev]? = some t → t.cancelled = false →
      s.batchTimer = some e.ev)
    (hb : s.batch ≠ []) : s.startBatchTimer.inv := by
  cases ht : s.batchTimer with
  | some h =>
    simp only [SBFT.startBatchTimer, ht]
    refine ⟨h1, h2, ?_, fun _ => hb⟩
    intro e he t hg hc
    exact ⟨h3 e he t hg hc, hb⟩
  | none =>
    refine ⟨?_, ?_, ?_, fun _ => by simpa [SBFT.startBatchTimer, ht] using hb⟩
    · simpa [SBFT.startBatchTimer, ht] using h1
    · intro e he
      simp only [SBFT.startBatchTimer, ht, testSystemAdapter.Timer, testSystem.enqueue,
        List.mem_append, List.mem_singleton, List.length_append, List.length_singleton]
        at he ⊢
      rcases he with he | he
      · have := h2 e he; omega
      · rw [he]; simp
    · intro e he t hg hc
      simp only [SBFT.startBatchTimer, ht, testSystemAdapter.Timer, testSystem.enqueue,
        List.mem_append, List.mem_singleton] at he hg ⊢
      rcases he with he | he
      · have hlt := h2 e he
        rw [List.getElem?_append_left hlt] at hg
        have := h3 e he t hg hc
        rw [ht] at this
        cases this
      · rw [he]
        exact ⟨rfl, hb⟩

theorem inv_handleRequest (s : SBFT) (req : Request) (src : Nat) (hi : s.inv) :
    (s.handleRequest req src).inv := by
  obtain ⟨h1, h2, h3, h4⟩ := hi
  have hb : s.batch ++ [req] ≠ [] := by simp
  have h3' : ∀ e ∈ s.sys.sys.queue, ∀ t, s.sys.sys.timers[e.ev]? = some t →
      t.cancelled = false → s.batchTimer = some e.ev := fun e he t hg hc => (h3 e he t hg hc).1
  cases hp : s.isPrimary with
  | false =>
    rw [handleRequest_of_backup s req src hp]
    exact ⟨h1, h2, h3, h4⟩
  | true =>
    by_cases hsz : s.config.BatchSizeBytes ≤ SBFT.batchSize { s with batch := s.batch ++ [req] }
    · rw [handleRequest_of_ge s req src hp hsz]
      exact inv_batchReady { s with batch := s.batch ++ [req] } h1 h2 h3' hb
    · rw [handleRequest_of_lt s req src hp (by omega)]
      exact inv_startBatchTimer { s with batch := s.batch ++ [req] } h1 h2 h3' hb

theorem inv_fire (s s' : SBFT) (i : Nat) (hi : s.inv) (hf : s.fire i = some s') : s'.inv := by
  obtain ⟨h1, h2, h3, h4⟩ := hi
  unfold SBFT.fire at hf
  cases hq : s.sys.sys.queue[i]? with
  | none => rw [hq] at hf; cases hf
  | some e =>
    rw [hq] at hf
    cases hg : s.sys.sys.timers[e.ev]? with
    | none => simp only [hg] at hf; cases hf
    | some t =>
      simp only [hg] at hf
      have hmem : e ∈ s.sys.sys.queue := List.getElem?_mem hq
      have hsub : ∀ e' ∈ s.sys.sys.queue.eraseIdx i, e' ∈ s.sys.sys.queue :=
        fun e' he' => List.mem_of_mem_eraseIdx he'
      cases hc : t.cancelled with
      | true =>
        simp only [testTimer.Exec, hc, Bool.not_true, Bool.false_eq_true, if_false,
          Option.some.injEq] at hf
        rw [← hf]
        exact ⟨h1, fun e' he' => h2 e' (hsub e' he'),
          fun e' he' t' hg' hc' => h3 e' (hsub e' he') t' hg' hc', h4⟩
      | false =>
        obtain ⟨-, hb⟩ := h3 e hmem t hg hc
        cases htf : t.tf with
        | other name =>
          simp [testTimer.Exec, hc, htf] at hf
        | batchReady =>
          simp only [testTimer.Exec, hc, htf, Bool.not_false, if_true, Option.some.injEq] at hf
          rw [← hf]
          exact inv_batchReady _ h1 (fun e' he' => h2 e' (hsub e' he'))
            (fun e' he' t' hg' hc' => (h3 e' (hsub e' he') t' hg' hc').1) hb

theorem inv_initial (s : SBFT) (h : s.initial) : s.inv := by
  obtain ⟨-, ht, hq, hp⟩ := h
  refine ⟨?_, ?_, ?_, fun hn => absurd ht hn⟩
  · intro p hpm; rw [hp] at hpm; cases hpm
  · intro e he; rw [hq] at he; cases he
  · intro e he; rw [hq] at he; cases he

theorem inv_reachable (s0 s : SBFT) (h0 : s0.inv) (hr : Reachable s0 s) : s.inv := by
  induction hr with
  | init => exact h0
  | step s s' _ hs ih =>
    match hs with
    | Step.request _ req src => exact inv_handleRequest s req src ih
    | Step.timer _ _ i hf => exact inv_fire s s' i ih hf

/-- C6. In every state reachable from an initial state (empty pending batch, no batch timer,
nothing queued at the host, no batch sent yet) by `handleRequest` steps and by the host
executing queued timer events (a cancelled timer does not run its callback), every batch that
was handed to `sendPreprepare` is a non-empty list of requests. -/
theorem batches_nonempty (s0 s : SBFT) (h0 : s0.initial) (hr : Reachable s0 s) :
    ∀ p ∈ s.preprepares, p.batch ≠ [] :=
  (inv_reachable s0 s (inv_initial s0 h0) hr).1

/-- Instance of C6: the state of `TestSBFT`'s primary after `r2`, `r3` and the batch timer is
reachable, and its only batch `[r2, r3]` is non-empty. -/
theorem batches_nonempty_witness :
    ∃ s, Reachable exPrimary s
      ∧ s.preprepares = [{ view := 0, seq := 0, batch := [exR2, exR3] }]
      ∧ ∀ p ∈ s.preprepares, p.batch ≠ [] :=
  ⟨SBFT.batchReady
      { ((exPrimary.handleRequest exR2 1).handleRequest exR3 1) with
        sys := { id := 0, sys := { now := 2000000000, queue := [],
                                   timers := [{ id := 0, tf := timerFunc.batchReady,
                                                cancelled := false }] } } },
   Reachable.step _ _
     (Reachable.step _ _ (Reachable.step _ _ Reachable.init (Step.request _ exR2 1))
       (Step.request _ exR3 1))
     (Step.timer _ _ 0 (by decide)),
   by decide,
   batches_nonempty exPrimary _ ⟨rfl, rfl, rfl, rfl⟩
     (Reachable.step _ _
       (Reachable.step _ _ (Reachable.step _ _ Reachable.init (Step.request _ exR2 1))
         (Step.request _ exR3 1))
       (Step.timer _ _ 0 (by decide)))⟩

end simplebft

namespace simplebft

/-! ## Signing and verification -/

/-- C7. `checkSig` returns `nil` exactly when the host's `CheckSig(sig.Data, signer,
sig.Signature)` returns `nil` and `proto.Unmarshal(sig.Data, msg)` returns `nil`; when the
signature check fails, `checkSig` returns that error and the target message is as it was,
whatever `Unmarshal` would do. -/
theorem checkSig_strict {M : Type} (sys : System) (pb : Proto M) (sig : Signed) (signer : Nat)
    (msg : M) :
    ((checkSig sys pb sig signer msg).1 = none
        ↔ sys.CheckSig sig.Data signer sig.Signature = none
          ∧ (pb.Unmarshal sig.Data msg).1 = none)
      ∧ (∀ err, sys.CheckSig sig.Data signer sig.Signature = some err →
          checkSig sys pb sig signer msg = (some err, msg)) := by
  unfold checkSig checkBytesSig
  cases hc : sys.CheckSig sig.Data signer sig.Signature with
  | some err => simp
  | none =>
    rcases hu : pb.Unmarshal sig.Data msg with ⟨e, m⟩
    cases e <;> simp

/-- Instance of C7: an envelope with a wrong signature is refused with the host's error
and the target keeps its content, although the payload would decode. -/
theorem checkSig_strict_witness :
    exSystem.CheckSig [10, 4] 0 [5] = some "bad signature"
      ∧ (exProto.Unmarshal [10, 4] [8]).1 = none
      ∧ checkSig exSystem exProto { Data := [10, 4], Signature := [5] } 0 [8]
          = (some "bad signature", [8]) :=
  ⟨by decide, by decide,
   (checkSig_strict exSystem exProto { Data := [10, 4], Signature := [5] } 0 [8]).2
     "bad signature" (by decide)⟩

/-- C8. For a message `m` that `proto.Marshal` encodes as `bytes`, `sign` yields the
envelope whose `Data` is `bytes` and whose `Signature` is the host's `Sign(bytes)`. If
moreover the host's `CheckSig` accepts, for the signer `id`, what `Sign` produces, and
`Unmarshal` inverts `Marshal`, then `checkSig` on that envelope returns `nil` and leaves `m`
in the target `out`. -/
theorem sign_checkSig_roundtrip {M : Type} (sys : System) (pb : Proto M) (id : Nat)
    (m out : M) (bytes : Bytes) (hm : pb.Marshal m = Except.ok bytes) :
    sign sys pb m = some { Data := bytes, Signature := sys.Sign bytes }
      ∧ ((∀ b, sys.CheckSig b id (sys.Sign b) = none) →
          (∀ x b o, pb.Marshal x = Except.ok b → pb.Unmarshal b o = (none, x)) →
          checkSig sys pb { Data := bytes, Signature := sys.Sign bytes } id out = (none, m)) := by
  refine ⟨by simp [sign, hm], ?_⟩
  intro hs hu
  simp [checkSig, checkBytesSig, hs bytes, hu m bytes out hm]

/-- Instance of C8: the message `[4, 5]` signed by replica 0 and checked into a target that
held `[8]`. -/
theorem sign_checkSig_roundtrip_witness :
    exProto.Marshal [4, 5] = Except.ok [10, 4, 5]
      ∧ sign exSystem exProto [4, 5] = some { Data := [10, 4, 5], Signature := [5, 4, 10] }
      ∧ checkSig exSystem exProto { Data := [10, 4, 5], Signature := [5, 4, 10] } 0 [8]
          = (none, [4, 5]) :=
  ⟨rfl, (sign_checkSig_roundtrip exSystem exProto 0 [4, 5] [8] [10, 4, 5] rfl).1,
   (sign_checkSig_roundtrip exSystem exProto 0 [4, 5] [8] [10, 4, 5] rfl).2
     (fun b => by simp [exSystem])
     (fun x b o h => by
        simp only [exProto, Except.ok.injEq] at h
        subst h
        rfl)⟩

end simplebft

namespace connection

/-! ## Certificate pinning -/

/-- C9. `ClientHandshake` returns the connection of the inner handshake, with a `nil` error,
when that handshake succeeded with a TLS connection whose first peer certificate is `Equal`
to the pinned one; in every other case it returns a non-`nil` error and no connection (and
no `AuthInfo`). When the inner handshake failed, its error is returned and the authenticator
is untouched; in the three failures after it, `tunneledError` is set to the returned
error. -/
theorem ClientHandshake_pins {Cert : Type} (Equal : Cert → Cert → Bool)
    (p : patchedAuthenticator Cert) (addr : String) (rawConn timeout : Nat) :
    (((p.ClientHandshake Equal addr rawConn timeout).1.err = none
          ∧ (p.ClientHandshake Equal addr rawConn timeout).1.conn ≠ none)
        ↔ ((p.TransportAuthenticator addr rawConn timeout).2 = none
            ∧ ∃ cert rest, (p.TransportAuthenticator addr rawConn timeout).1
                  = some (Conn.tls (cert :: rest))
                ∧ Equal cert p.pinnedCert = true))
      ∧ ((p.ClientHandshake Equal addr rawConn timeout).1.err = none →
          (p.ClientHandshake Equal addr rawConn timeout).1.conn
              = (p.TransportAuthenticator addr rawConn timeout).1
            ∧ (p.ClientHandshake Equal addr rawConn timeout).1.conn ≠ none
            ∧ (p.ClientHandshake Equal addr rawConn timeout).2 = p)
      ∧ ((p.ClientHandshake Equal addr rawConn timeout).1.err ≠ none →
          (p.ClientHandshake Equal addr rawConn timeout).1.conn = none
            ∧ (p.ClientHandshake Equal addr rawConn timeout).1.auth = none)
      ∧ ((p.TransportAuthenticator addr rawConn timeout).2 ≠ none →
          (p.ClientHandshake Equal addr rawConn timeout).1.err
              = (p.TransportAuthenticator addr rawConn timeout).2
            ∧ (p.ClientHandshake Equal addr rawConn timeout).2 = p)
      ∧ ((p.TransportAuthenticator addr rawConn timeout).2 = none →
          (p.ClientHandshake Equal addr rawConn timeout).1.err ≠ none →
          (p.ClientHandshake Equal addr rawConn timeout).2.tunneledError
              = (p.ClientHandshake Equal addr rawConn timeout).1.err
            ∧ (p.ClientHandshake Equal addr rawConn timeout).2.pinnedCert = p.pinnedCert) := by
  unfold patchedAuthenticator.ClientHandshake
  rcases hin : p.TransportAuthenticator addr rawConn timeout with ⟨conn, err⟩
  cases err with
  | some e => simp
  | none =>
    cases conn with
    | none => simp
    | some c =>
      cases c with
      | other name => simp
      | tls state =>
        cases state with
        | nil => simp
        | cons cert rest =>
          cases heq : Equal cert p.pinnedCert <;> simp [heq]

/-- Instance of C9: the peer presenting the pinned certificate first is connected; the peer
presenting another certificate is refused and the error is kept in `tunneledError`. -/
theorem ClientHandshake_pins_witness :
    (exAuth.ClientHandshake (fun a b => a == b) "good" 0 0).1.conn
        = some (Conn.tls [[1, 2], [7]])
      ∧ (exAuth.ClientHandshake (fun a b => a == b) "evil" 0 0).1.conn = none
      ∧ (exAuth.ClientHandshake (fun a b => a == b) "evil" 0 0).2.tunneledError
          = some "peer certificate does not match" :=
  ⟨((ClientHandshake_pins (fun a b => a == b) exAuth "good" 0 0).2.1 (by decide)).1,
   ((ClientHandshake_pins (fun a b => a == b) exAuth "evil" 0 0).2.2.1 (by decide)).1,
   by decide⟩

end connection

namespace obcpbft

/-! ## Restoration of the persisted state -/

section restore

variable {Req : Type}

theorem foldl_frame {α : Type} (f : pbftCore Req → α → pbftCore Req) (l : List α)
    (inst : pbftCore Req)
    (hf : ∀ i a, (f i a).consumer = i.consumer ∧ (f i a).view = i.view
      ∧ (f i a).seqNo = i.seqNo) :
    (l.foldl f inst).consumer = inst.consumer ∧ (l.foldl f inst).view = inst.view
      ∧ (l.foldl f inst).seqNo = inst.seqNo := by
  induction l generalizing inst with
  | nil => exact ⟨rfl, rfl, rfl⟩
  | cons a as ih =>
    obtain ⟨h1, h2, h3⟩ := ih (f inst a)
    obtain ⟨g1, g2, g3⟩ := hf inst a
    exact ⟨h1.trans g1, h2.trans g2, h3.trans g3⟩

theorem maxOf_append (a b : List Nat) : maxOf (a ++ b) = max (maxOf a) (maxOf b) := by
  induction a with
  | nil => simp [maxOf]
  | cons x xs ih =>
    simp only [maxOf, List.cons_append, List.foldr_cons] at ih ⊢
    rw [ih, max_assoc]

theorem le_maxOf (l : List Nat) (x : Nat) (h : x ∈ l) : x ≤ maxOf l := by
  induction l with
  | nil => cases h
  | cons y ys ih =>
    simp only [maxOf, List.foldr_cons] at ih ⊢
    rcases List.mem_cons.mp h with h | h
    · rw [h]; exact le_max_left _ _
    · exact le_trans (ih h) (le_max_right _ _)

theorem updateSeqView_spec (set : List ViewChange_PQ) (inst : pbftCore Req) :
    (inst.updateSeqView set).consumer = inst.consumer
      ∧ (inst.updateSeqView set).view = max inst.view (maxOf (set.map (fun e => e.View)))
      ∧ (inst.updateSeqView set).seqNo
          = max inst.seqNo (maxOf (set.map (fun e => e.SequenceNumber))) := by
  induction set generalizing inst with
  | nil => simp [pbftCore.updateSeqView, maxOf]
  | cons e es ih =>
    simp only [pbftCore.updateSeqView, List.foldl_cons, List.map_cons, maxOf,
      List.foldr_cons] at ih ⊢
    obtain ⟨h1, h2, h3⟩ := ih
      (if (if inst.view < e.View then { inst with view := e.View } else inst).seqNo
          < e.SequenceNumber then
        { (if inst.view < e.View then { inst with view := e.View } else inst) with
          seqNo := e.SequenceNumber }
      else (if inst.view < e.View then { inst with view := e.View } else inst))
    rw [h1, h2, h3]
    by_cases hv : inst.view < e.View <;> by_cases hs : inst.seqNo < e.SequenceNumber <;>
      simp [hv, hs] <;> omega

theorem restorePQSet_congr (a b : pbftCore Req) (pb : Codec Req) (key : String)
    (h : a.consumer = b.consumer) : a.restorePQSet pb key = b.restorePQSet pb key := by
  simp [pbftCore.restorePQSet, h]

theorem restoreState_spec (inst : pbftCore Req) (pb : Codec Req) :
    (inst.restoreState pb).view
        = max inst.view (maxOf ((inst.restorePQSet pb "pset" ++ inst.restorePQSet pb "qset").map
            (fun e => e.View)))
      ∧ (inst.restoreState pb).seqNo
        = max inst.seqNo (maxOf ((inst.restorePQSet pb "pset"
            ++ inst.restorePQSet pb "qset").map (fun e => e.SequenceNumber)))
      ∧ (inst.restoreState pb).lastExec
        = if inst.consumer.getLastSeqNo.2 then inst.consumer.getLastSeqNo.1 else 0 := by
  unfold pbftCore.restoreState
  lift_lets
  intro set i1 i2 set2 i3 i4 i5 r i6
  have h1 : i1.consumer = inst.consumer ∧ i1.view = inst.view ∧ i1.seqNo = inst.seqNo :=
    foldl_frame _ set inst (fun _ _ => ⟨rfl, rfl, rfl⟩)
  have h2 := updateSeqView_spec set i1
  have hset2 : set2 = inst.restorePQSet pb "qset" :=
    restorePQSet_congr i2 inst pb "qset" (h2.1.trans h1.1)
  have h3 : i3.consumer = i2.consumer ∧ i3.view = i2.view ∧ i3.seqNo = i2.seqNo :=
    foldl_frame _ set2 i2 (fun _ _ => ⟨rfl, rfl, rfl⟩)
  have h4 := updateSeqView_spec set2 i3
  have h5 : i5.consumer = i4.consumer ∧ i5.view = i4.view ∧ i5.seqNo = i4.seqNo := by
    simp only [i5]
    cases i4.consumer.ReadStateSet "req." with
    | error e => exact ⟨rfl, rfl, rfl⟩
    | ok reqs =>
      refine foldl_frame _ reqs i4 (fun i kv => ?_)
      dsimp only
      cases pb.UnmarshalRequest kv.2 <;> exact ⟨rfl, rfl, rfl⟩
  have hc : i5.consumer = inst.consumer :=
    h5.1.trans (h4.1.trans (h3.1.trans (h2.1.trans h1.1)))
  have hv : i5.view = max inst.view (maxOf ((set ++ set2).map (fun e => e.View))) := by
    rw [h5.2.1, h4.2.1, h3.2.1, h2.2.1, h1.2.1, List.map_append, maxOf_append, max_assoc]
  have hs : i5.seqNo = max inst.seqNo (maxOf ((set ++ set2).map (fun e => e.SequenceNumber))) := by
    rw [h5.2.2, h4.2.2, h3.2.2, h2.2.2, h1.2.2, List.map_append, maxOf_append, max_assoc]
  have hr : r = inst.consumer.getLastSeqNo := congrArg Consumer.getLastSeqNo hc
  rw [← hset2, ← hr]
  cases hok : r.2 <;> simp [i6, hv, hs]

theorem maxOf_mem (l : List Nat) (h : l ≠ []) : maxOf l ∈ l := by
  induction l with
  | nil => exact absurd rfl h
  | cons x xs ih =>
    by_cases hx : xs = []
    · subst hx; simp [maxOf]
    · have := ih hx
      simp only [maxOf, List.foldr_cons, List.mem_cons] at this ⊢
      rcases le_total x (List.foldr max 0 xs) with hle | hle
      · rw [max_eq_right hle]; exact Or.inr this
      · rw [max_eq_left hle]; exact Or.inl rfl

/-- C10. For a freshly booted instance (`view = 0`, `seqNo = 0`) and any persistence store,
after `restoreState` the `view` is the maximum `View` and `seqNo` the maximum
`SequenceNumber` over the entries restored from "pset" and "qset": no entry exceeds them,
some entry attains each of them unless both sets are empty, and they are 0 when both sets are
empty (a key that cannot be read restores as the empty set). `lastExec` is the value of
`getLastSeqNo()` when it reports ok and 0 otherwise. For every instance, `restoreState`
does not decrease `view` or `seqNo`. -/
theorem restoreState_maxima (inst : pbftCore Req) (pb : Codec Req) :
    (inst.view = 0 → inst.seqNo = 0 →
        (inst.restoreState pb).view
            = maxOf ((inst.restorePQSet pb "pset" ++ inst.restorePQSet pb "qset").map
                (fun e => e.View))
          ∧ (inst.restoreState pb).seqNo
            = maxOf ((inst.restorePQSet pb "pset" ++ inst.restorePQSet pb "qset").map
                (fun e => e.SequenceNumber))
          ∧ (∀ e ∈ inst.restorePQSet pb "pset" ++ inst.restorePQSet pb "qset",
              e.View ≤ (inst.restoreState pb).view
                ∧ e.SequenceNumber ≤ (inst.restoreState pb).seqNo)
          ∧ (inst.restorePQSet pb "pset" ++ inst.restorePQSet pb "qset" ≠ [] →
              (∃ e ∈ inst.restorePQSet pb "pset" ++ inst.restorePQSet pb "qset",
                  e.View = (inst.restoreState pb).view)
                ∧ ∃ e ∈ inst.restorePQSet pb "pset" ++ inst.restorePQSet pb "qset",
                  e.SequenceNumber = (inst.restoreState pb).seqNo)
          ∧ (inst.restorePQSet pb "pset" ++ inst.restorePQSet pb "qset" = [] →
              (inst.restoreState pb).view = 0 ∧ (inst.restoreState pb).seqNo = 0))
      ∧ (∀ key err, inst.consumer.ReadState key = Except.error err →
          inst.restorePQSet pb key = [])
      ∧ (inst.restoreState pb).lastExec
          = (if inst.consumer.getLastSeqNo.2 then inst.consumer.getLastSeqNo.1 else 0)
      ∧ inst.view ≤ (inst.restoreState pb).view
      ∧ inst.seqNo ≤ (inst.restoreState pb).seqNo := by
  obtain ⟨hv, hs, hl⟩ := restoreState_spec inst pb
  refine ⟨?_, ?_, hl, by rw [hv]; exact le_max_left _ _, by rw [hs]; exact le_max_left _ _⟩
  · intro h0 h1
    rw [h0, Nat.zero_max] at hv
    rw [h1, Nat.zero_max] at hs
    refine ⟨hv, hs, ?_, ?_, ?_⟩
    · intro e he
      rw [hv, hs]
      exact ⟨le_maxOf _ _ (List.mem_map_of_mem (fun e => e.View) he),
        le_maxOf _ _ (List.mem_map_of_mem (fun e => e.SequenceNumber) he)⟩
    · intro hne
      have hne1 : (inst.restorePQSet pb "pset" ++ inst.restorePQSet pb "qset").map
          (fun e => e.View) ≠ [] := by simpa using hne
      have hne2 : (inst.restorePQSet pb "pset" ++ inst.restorePQSet pb "qset").map
          (fun e => e.SequenceNumber) ≠ [] := by simpa using hne
      obtain ⟨e1, he1, h1'⟩ := List.mem_map.mp (maxOf_mem _ hne1)
      obtain ⟨e2, he2, h2'⟩ := List.mem_map.mp (maxOf_mem _ hne2)
      exact ⟨⟨e1, he1, by rw [hv]; exact h1'⟩, ⟨e2, he2, by rw [hs]; exact h2'⟩⟩
    · intro hnil
      rw [hv, hs, hnil]
      exact ⟨rfl, rfl⟩
  · intro key err hk
    simp [pbftCore.restorePQSet, hk]

end restore

/-- Instance of C10: a fresh instance on a store whose P-set holds the entries (view 2,
sequence number 33) and (view 1, sequence number 18), whose Q-set cannot be read, and whose
last executed sequence number is 30. -/
theorem restoreState_maxima_witness :
    exCore.view = 0 ∧ exCore.seqNo = 0
      ∧ (exCore.restoreState exCodec).view = 2
      ∧ (exCore.restoreState exCodec).seqNo = 33
      ∧ (exCore.restoreState exCodec).lastExec = 30 :=
  ⟨rfl, rfl,
   ((restoreState_maxima exCore exCodec).1 rfl rfl).1.trans (by decide),
   ((restoreState_maxima exCore exCodec).1 rfl rfl).2.1.trans (by decide),
   (restoreState_maxima exCore exCodec).2.2.1.trans (by decide)⟩

/-! ## Persisted requests -/

theorem req_key_ne (d : String) : "req." ++ d ≠ d := by
  intro h
  have hl := congrArg String.length h
  rw [String.length_append] at hl
  have h4 : "req.".length = 4 := by decide
  omega

theorem req_key_pre (d : String) : "req.".data.isPrefixOf ("req." ++ d).data = true := by
  rw [String.data_append, List.isPrefixOf_iff_prefix]
  exact List.prefix_append _ _

theorem find?_key_append (l : List (String × Bytes)) (k : String) (v : Bytes)
    (h : ∀ kv ∈ l, kv.1 ≠ k) :
    (l ++ [(k, v)]).find? (fun kv => kv.1 = k) = some (k, v) := by
  induction l with
  | nil => simp
  | cons x xs ih =>
    have hx : x.1 ≠ k := h x (List.mem_cons_self _ _)
    have := ih (fun kv hkv => h kv (List.mem_cons_of_mem _ hkv))
    simpa [List.find?_cons, hx] using this

theorem persistRequest_entries {Req : Type} (inst : pbftCore Req)
    (Marshal : Option Req → Except Error Bytes) (st : Store) (d : String) (req : Req)
    (raw : Bytes) (hd : inst.reqStoreGet d = some req) (hm : Marshal (some req) = Except.ok raw) :
    (inst.persistRequest Marshal st d).entries
      = st.entries.filter (fun kv => kv.1 ≠ "req." ++ d) ++ [("req." ++ d, raw)] := by
  simp [pbftCore.persistRequest, hd, hm, Store.StoreState, mapStore]

theorem foldl_DelState_mem (kvs : List (String × Bytes)) (st : Store) (e : String × Bytes)
    (he : e ∈ (kvs.foldl (fun s kv => s.DelState kv.1) st).entries) :
    e ∈ st.entries ∧ ∀ kv ∈ kvs, e.1 ≠ kv.1 := by
  induction kvs generalizing st with
  | nil => exact ⟨he, fun kv hkv => by cases hkv⟩
  | cons x xs ih =>
    obtain ⟨h1, h2⟩ := ih (st.DelState x.1) he
    simp only [Store.DelState, List.mem_filter, decide_eq_true_eq] at h1
    refine ⟨h1.1, fun kv hkv => ?_⟩
    rcases List.mem_cons.mp hkv with hkv | hkv
    · rw [hkv]; exact h1.2
    · exact h2 kv hkv

theorem persistDelAllRequests_clears (st : Store) :
    (pbftCore.persistDelAllRequests st).ReadStateSet "req." = Except.ok [] := by
  simp only [pbftCore.persistDelAllRequests, Store.ReadStateSet, Except.ok.injEq,
    List.filter_eq_nil_iff]
  intro e he hpre
  obtain ⟨h1, h2⟩ := foldl_DelState_mem _ st e he
  exact h2 e (List.mem_filter.mpr ⟨h1, hpre⟩) rfl

/-- C11 on the code. For a digest `d` of the request store whose request `proto.Marshal`
encodes as `raw`, `persistRequest(d)` writes `raw` under the key `"req." ++ d`. The call
`persistDelRequest(d)` that follows deletes the key `d`, which is a different key: the entry
under `"req." ++ d` is still read back, and `ReadStateSet("req.")` still returns it. The
sibling `persistDelAllRequests` deletes under the prefixed keys and leaves no entry under
`"req."`. -/
theorem persistDelRequest_misses_key {Req : Type} (inst : pbftCore Req)
    (Marshal : Option Req → Except Error Bytes) (st : Store) (d : String) (req : Req)
    (raw : Bytes) (hd : inst.reqStoreGet d = some req) (hm : Marshal (some req) = Except.ok raw) :
    (inst.persistRequest Marshal st d).ReadState ("req." ++ d) = Except.ok raw
      ∧ (pbftCore.persistDelRequest (inst.persistRequest Marshal st d) d).ReadState
          ("req." ++ d) = Except.ok raw
      ∧ (∃ kvs, (pbftCore.persistDelRequest (inst.persistRequest Marshal st d) d).ReadStateSet
            "req." = Except.ok kvs
          ∧ ("req." ++ d, raw) ∈ kvs)
      ∧ (∀ kv ∈ (pbftCore.persistDelRequest (inst.persistRequest Marshal st d) d).entries,
          kv.1 ≠ d)
      ∧ (pbftCore.persistDelAllRequests (inst.persistRequest Marshal st d)).ReadStateSet "req."
          = Except.ok [] := by
  have he := persistRequest_entries inst Marshal st d req raw hd hm
  have hne := req_key_ne d
  have hdel : (pbftCore.persistDelRequest (inst.persistRequest Marshal st d) d).entries
      = (st.entries.filter (fun kv => kv.1 ≠ "req." ++ d)).filter (fun kv => kv.1 ≠ d)
        ++ [("req." ++ d, raw)] := by
    simp [pbftCore.persistDelRequest, Store.DelState, he, hne]
  refine ⟨?_, ?_, ⟨_, rfl, ?_⟩, ?_, persistDelAllRequests_clears _⟩
  · simp only [Store.ReadState, he]
    rw [find?_key_append _ _ _ (fun kv hkv => by simpa using (List.mem_filter.mp hkv).2)]
  · simp only [Store.ReadState, hdel]
    rw [find?_key_append _ _ _ (fun kv hkv => by
      simpa using (List.mem_filter.mp (List.mem_filter.mp hkv).1).2)]
  · rw [List.mem_filter, hdel]
    exact ⟨List.mem_append_right _ (List.mem_singleton_self _), req_key_pre d⟩
  · intro kv hkv
    simp only [pbftCore.persistDelRequest, Store.DelState, List.mem_filter,
      decide_eq_true_eq] at hkv
    exact hkv.2

/-- The failing input of C11: the request `[7]` stored under the digest "ab". After
`persistRequest("ab")` and `persistDelRequest("ab")` the store still holds the entry
"req.ab", and `ReadStateSet("req.")` returns it. -/
theorem persistDelRequest_misses_key_witness :
    exCoreReq.reqStoreGet "ab" = some [7]
      ∧ (pbftCore.persistDelRequest (exCoreReq.persistRequest exMarshal exStore "ab") "ab")
          = { entries := [("pset", [33, 18]), ("req.ab", [7])] }
      ∧ (pbftCore.persistDelRequest (exCoreReq.persistRequest exMarshal exStore "ab")
          "ab").ReadState "req.ab" = Except.ok [7]
      ∧ (pbftCore.persistDelRequest (exCoreReq.persistRequest exMarshal exStore "ab")
          "ab").ReadStateSet "req." = Except.ok [("req.ab", [7])] :=
  ⟨by decide, by decide,
   (persistDelRequest_misses_key exCoreReq exMarshal exStore "ab" [7] [7] (by decide) rfl).2.1,
   by rfl⟩

end obcpbft
